import Mathlib

/-!
Verification of the PiNet API (`src/app.py`): a small Flask service with an
API-key gate, an IPv4-validated ping endpoint and a MAC-validated
Wake-on-LAN endpoint.  The Python code is shallowly embedded: the two
regex-based validators are embedded via a small regex AST and a
backtracking matcher (`Rx.run`), request handlers become pure functions
from the request data and an abstract outcome of the external operation
(subprocess exit / packet send) to the HTTP response.
-/

set_option maxRecDepth 4096

namespace PiNet

/-- Universe of Python values that can reach the validators and handlers
(JSON scalars and containers, as produced by `request.get_json`, plus the
path-parameter strings). -/
inductive PyVal : Type
  | pynone : PyVal
  | pybool (b : Bool) : PyVal
  | pyint (n : Int) : PyVal
  | pystr (s : String) : PyVal
  | pylist (xs : List PyVal) : PyVal
  | pydict (kvs : List (String × PyVal)) : PyVal

/-- Python truthiness (`bool(v)`): `None`, `False`, `0`, `""`, `[]`, `{}`
are falsy, everything else truthy. -/
def PyVal.truthy : PyVal → Bool
  | .pynone => false
  | .pybool b => b
  | .pyint n => n != 0
  | .pystr s => s ≠ ""
  | .pylist xs => !xs.isEmpty
  | .pydict kvs => !kvs.isEmpty

/-- `isinstance(v, str)`. -/
def PyVal.isStr : PyVal → Bool
  | .pystr _ => true
  | _ => false

/-- Python `str(v)` restricted to the cases the handlers can reach: the
handlers only interpolate values that passed MAC validation, which are
strings, so only the `pystr` case is ever exercised; the remaining cases
are best-effort renderings. -/
def PyVal.pyStr : PyVal → String
  | .pystr s => s
  | .pyint n => toString n
  | .pybool b => if b then "True" else "False"
  | .pynone => "None"
  | .pylist _ => "[...]"
  | .pydict _ => "\x7b...\x7d"

/-- `dict.get key`: the value stored under `key`, if any (parsed JSON
objects have unique keys, so first match suffices). -/
def pyGet (kvs : List (String × PyVal)) (key : String) : Option PyVal :=
  (kvs.find? (fun kv => kv.1 = key)).map (fun kv => kv.2)

/-- The ASCII whitespace characters removed by Python `str.strip()`. -/
def isPySpace (c : Char) : Bool :=
  c = ' ' || c = '\t' || c = '\n' || c = '\x0d' || c = '\x0b' || c = '\x0c'

/-- Python `str.strip()`: drop leading and trailing whitespace. -/
def pyStrip (s : String) : String :=
  ⟨((s.data.dropWhile isPySpace).reverse.dropWhile isPySpace).reverse⟩

/-! ### Regex embedding

The validators in `app.py` are compiled `re` patterns used with
`pattern.match` on the stripped string.  All patterns are of the form
`^...$` with no `*`/`+`, so full-string matching of a star-free regex
suffices (after `strip` the string has no trailing newline, so `$` is
exactly end-of-string).  `Rx` covers the constructs the patterns use:
character classes (a literal `c` is the class `[c-c]`), concatenation,
alternation, `?`, and `{n}` via `repN`. -/

inductive Rx : Type
  | eps : Rx
  | cls (lo hi : Char) : Rx
  | seq (a b : Rx) : Rx
  | alt (a b : Rx) : Rx
  | opt (a : Rx) : Rx

/-- Backtracking matcher in continuation style: `r.run l k` is true iff
some prefix of `l` matches `r` and `k` accepts the corresponding rest. -/
def Rx.run : Rx → List Char → (List Char → Bool) → Bool
  | .eps, l, k => k l
  | .cls lo hi, l, k =>
    match l with
    | c :: r => (decide (lo ≤ c) && decide (c ≤ hi)) && k r
    | [] => false
  | .seq a b, l, k => a.run l (fun r => b.run r k)
  | .alt a b, l, k => a.run l k || b.run l k
  | .opt a, l, k => a.run l k || k l

/-- Declarative language of a pattern. -/
def Rx.Lang : Rx → List Char → Prop
  | .eps, l => l = []
  | .cls lo hi, l => ∃ c, l = [c] ∧ lo ≤ c ∧ c ≤ hi
  | .seq a b, l => ∃ p q, l = p ++ q ∧ a.Lang p ∧ b.Lang q
  | .alt a b, l => a.Lang l ∨ b.Lang l
  | .opt a, l => a.Lang l ∨ l = []

/-- `{n}`: `n` copies in sequence. -/
def Rx.repN (r : Rx) : Nat → Rx
  | 0 => .eps
  | n + 1 => .seq r (r.repN n)

/-- Soundness and completeness of the matcher with respect to the
declarative language. -/
theorem Rx.run_iff (r : Rx) : ∀ (l : List Char) (k : List Char → Bool),
    (r.run l k = true ↔ ∃ p q, l = p ++ q ∧ r.Lang p ∧ k q = true) := by
  induction r with
  | eps =>
    intro l k
    simp only [Rx.run, Rx.Lang]
    constructor
    · intro h; exact ⟨[], l, rfl, rfl, h⟩
    · rintro ⟨p, q, rfl, rfl, h⟩; simpa using h
  | cls lo hi =>
    intro l k
    cases l with
    | nil =>
      simp only [Rx.run, Rx.Lang]
      constructor
      · intro h; cases h
      · rintro ⟨p, q, h, ⟨c, rfl, -, -⟩, -⟩
        exact absurd h (by simp)
    | cons c r =>
      simp only [Rx.run, Rx.Lang]
      constructor
      · intro h
        simp only [Bool.and_eq_true, decide_eq_true_eq] at h
        exact ⟨[c], r, rfl, ⟨c, rfl, h.1.1, h.1.2⟩, h.2⟩
      · rintro ⟨p, q, h, ⟨c', rfl, h1, h2⟩, hk⟩
        simp only [List.cons_append, List.nil_append, List.cons.injEq] at h
        obtain ⟨rfl, rfl⟩ := h
        simp [h1, h2, hk]
  | seq a b iha ihb =>
    intro l k
    simp only [Rx.run, Rx.Lang]
    rw [iha]
    constructor
    · rintro ⟨p, q, rfl, hp, hq⟩
      rw [ihb] at hq
      obtain ⟨p', q', rfl, hp', hq'⟩ := hq
      exact ⟨p ++ p', q', by rw [List.append_assoc], ⟨p, p', rfl, hp, hp'⟩, hq'⟩
    · rintro ⟨P, Q, rfl, ⟨p, p', rfl, hp, hp'⟩, hk⟩
      refine ⟨p, p' ++ Q, by rw [List.append_assoc], hp, ?_⟩
      rw [ihb]
      exact ⟨p', Q, rfl, hp', hk⟩
  | alt a b iha ihb =>
    intro l k
    simp only [Rx.run, Rx.Lang, Bool.or_eq_true, iha, ihb]
    constructor
    · rintro (⟨p, q, rfl, hp, hk⟩ | ⟨p, q, rfl, hp, hk⟩)
      · exact ⟨p, q, rfl, Or.inl hp, hk⟩
      · exact ⟨p, q, rfl, Or.inr hp, hk⟩
    · rintro ⟨p, q, rfl, hp | hp, hk⟩
      · exact Or.inl ⟨p, q, rfl, hp, hk⟩
      · exact Or.inr ⟨p, q, rfl, hp, hk⟩
  | opt a iha =>
    intro l k
    simp only [Rx.run, Rx.Lang, Bool.or_eq_true, iha]
    constructor
    · rintro (⟨p, q, rfl, hp, hk⟩ | hk)
      · exact ⟨p, q, rfl, Or.inl hp, hk⟩
      · exact ⟨[], l, rfl, Or.inr rfl, hk⟩
    · rintro ⟨p, q, rfl, hp | rfl, hk⟩
      · exact Or.inl ⟨p, q, rfl, hp, hk⟩
      · exact Or.inr (by simpa using hk)

/-- Anchored (`^...$`) match of the whole string. -/
def Rx.fullmatch (r : Rx) (s : String) : Bool :=
  r.run s.data (fun rem => rem.isEmpty)

theorem Rx.fullmatch_iff (r : Rx) (s : String) :
    r.fullmatch s = true ↔ r.Lang s.data := by
  unfold Rx.fullmatch
  rw [Rx.run_iff]
  constructor
  · rintro ⟨p, q, h, hp, hq⟩
    rw [List.isEmpty_iff] at hq
    subst hq
    rw [List.append_nil] at h
    subst h
    exact hp
  · intro h
    exact ⟨s.data, [], (List.append_nil _).symm, h, rfl⟩

/-! ### The concrete patterns of `app.py` -/

/-- `25[0-5] | 2[0-4][0-9] | [01]?[0-9][0-9]?` — one octet of the IPv4
pattern in `validate_ip_address`. -/
def octetRx : Rx :=
  .alt (.seq (.cls '2' '2') (.seq (.cls '5' '5') (.cls '0' '5')))
    (.alt (.seq (.cls '2' '2') (.seq (.cls '0' '4') (.cls '0' '9')))
      (.seq (.opt (.cls '0' '1')) (.seq (.cls '0' '9') (.opt (.cls '0' '9')))))

/-- `^(?:(?:octet)\.){3}(?:octet)$` from `validate_ip_address`. -/
def ipv4Rx : Rx :=
  .seq ((Rx.seq octetRx (.cls '.' '.')).repN 3) octetRx

/-- `[0-9A-Fa-f]` — one hex digit. -/
def hexRx : Rx :=
  .alt (.cls '0' '9') (.alt (.cls 'A' 'F') (.cls 'a' 'f'))

/-- `^([0-9A-Fa-f]{2}:){5}[0-9A-Fa-f]{2}$` from `validate_mac_address`. -/
def macColonRx : Rx :=
  .seq ((Rx.seq (hexRx.repN 2) (.cls ':' ':')).repN 5) (hexRx.repN 2)

/-- `^([0-9A-Fa-f]{2}-){5}[0-9A-Fa-f]{2}$` from `validate_mac_address`. -/
def macHyphenRx : Rx :=
  .seq ((Rx.seq (hexRx.repN 2) (.cls '-' '-')).repN 5) (hexRx.repN 2)

/-- `^[0-9A-Fa-f]{12}$` from `validate_mac_address`. -/
def macBareRx : Rx :=
  hexRx.repN 12

/-! ### Validators -/

/-- `validate_ip_address` (`app.py:77-96`): reject non-strings and the
empty string (`if not ip_address or not isinstance(ip_address, str)`),
then match the IPv4 pattern against the stripped string. -/
def validate_ip_address (v : PyVal) : Bool :=
  match v with
  | .pystr s => if s = "" then false else ipv4Rx.fullmatch (pyStrip s)
  | _ => false

/-- `validate_mac_address` (`app.py:98-122`): reject non-strings and the
empty string, strip, then try the three patterns in order
(`any(pattern.match(...) for pattern in mac_patterns)`). -/
def validate_mac_address (v : PyVal) : Bool :=
  match v with
  | .pystr s =>
    if s = "" then false
    else
      macColonRx.fullmatch (pyStrip s) || macHyphenRx.fullmatch (pyStrip s)
        || macBareRx.fullmatch (pyStrip s)
  | _ => false

/-! ### HTTP layer -/

/-- An HTTP response: status code and flat JSON-object body (every body
the app produces is an object of string fields). -/
structure HttpResponse : Type where
  status : Nat
  body : List (String × String)
deriving DecidableEq, Repr

/-- `jsonify({"status": "error", "message": msg})`. -/
def jsonError (msg : String) : List (String × String) :=
  [("status", "error"), ("message", msg)]

/-- `require_api_key` (`app.py:52-71`): `provided_key =
request.headers.get('X-API-Key')`; `if not provided_key` → 401 "API key
required"; `if provided_key != API_KEY` → 401 "Invalid API key";
otherwise proceed (`none` = run the wrapped handler). -/
def require_api_key_check (apiKey : String) (provided : Option String) :
    Option HttpResponse :=
  match provided with
  | none => some ⟨401, jsonError "API key required"⟩
  | some k =>
    if k = "" then some ⟨401, jsonError "API key required"⟩
    else if k ≠ apiKey then some ⟨401, jsonError "Invalid API key"⟩
    else none

/-- Startup check (`app.py:38-44`): `API_KEY = os.getenv('API_KEY')`;
`if not API_KEY: sys.exit(1)` — `none` models the refused start. -/
def startup_api_key (env : Option String) : Option String :=
  match env with
  | some k => if k = "" then none else some k
  | none => none

/-- Outcome of the `subprocess.run(['ping', '-c', '1', '-W', '2', ip],
timeout=5)` call: normal exit with a return code, `TimeoutExpired`, or
any other exception while launching/reading the subprocess. -/
inductive PingOutcome : Type
  | exited (returncode : Int) : PingOutcome
  | timedOut : PingOutcome
  | raised : PingOutcome

/-- `ping_host` (`app.py:142-200`) after authentication; the second
component records whether the subprocess was invoked at all. -/
def ping_host (ip_address : String) (out : PingOutcome) :
    HttpResponse × Bool :=
  if ¬ validate_ip_address (.pystr ip_address) then
    (⟨400, jsonError "Invalid IP address format."⟩, false)
  else
    match out with
    | .exited rc =>
      if rc = 0 then
        (⟨200, [("ip_address", ip_address), ("status", "online")]⟩, true)
      else
        (⟨200, [("ip_address", ip_address), ("status", "offline")]⟩, true)
    | .timedOut =>
      (⟨200, [("ip_address", ip_address), ("status", "offline")]⟩, true)
    | .raised =>
      (⟨500, jsonError "Internal error executing ping"⟩, true)

/-- `GET /ping/<ip_address>`: the `require_api_key` decorator around
`ping_host`. -/
def ping_endpoint (apiKey : String) (header : Option String)
    (ip : String) (out : PingOutcome) : HttpResponse × Bool :=
  match require_api_key_check apiKey header with
  | some resp => (resp, false)
  | none => ping_host ip out

/-- `wake_on_lan` (`app.py:204-256`) after authentication.  `data` is the
result of `request.get_json()` (`none` = absent/unparseable body).  The
second component records the argument passed to `send_magic_packet`
(`none` = the sender was never invoked); `sendOk` abstracts whether that
call raises.  A truthy non-dict body makes `data.get` raise
`AttributeError`, handled by the app-wide `errorhandler(Exception)`. -/
def wake_on_lan (data : Option PyVal) (sendOk : Bool) :
    HttpResponse × Option PyVal :=
  match data with
  | none => (⟨400, jsonError "Request body must be JSON"⟩, none)
  | some d =>
    if d.truthy = false then
      (⟨400, jsonError "Request body must be JSON"⟩, none)
    else
      match d with
      | .pydict kvs =>
        let mac := (pyGet kvs "mac_address").getD .pynone
        if mac.truthy = false then
          (⟨400, jsonError "Missing mac_address field in request body"⟩, none)
        else if validate_mac_address mac = false then
          (⟨400, jsonError "Invalid MAC address format."⟩, none)
        else if sendOk then
          (⟨200, [("status", "success"),
            ("message", "Wake-on-LAN packet sent to " ++ mac.pyStr)]⟩,
            some mac)
        else
          (⟨500, jsonError "Failed to send Wake-on-LAN packet"⟩, some mac)
      | _ => (⟨500, jsonError "An unexpected error occurred"⟩, none)

/-- `POST /wol`: the `require_api_key` decorator around `wake_on_lan`. -/
def wol_endpoint (apiKey : String) (header : Option String)
    (data : Option PyVal) (sendOk : Bool) : HttpResponse × Option PyVal :=
  match require_api_key_check apiKey header with
  | some resp => (resp, none)
  | none => wake_on_lan data sendOk

/-! ### Spec-side predicates (formalized from the spec's words, to be
compared with the regex-based source embedding) -/

/-- A decimal digit character. -/
def isDigitCh (c : Char) : Bool :=
  decide ('0' ≤ c) && decide (c ≤ '9')

/-- Numeric value of a digit character. -/
def digitVal (c : Char) : Nat := c.toNat - 48

/-- Decimal value of a digit string. -/
def decVal (l : List Char) : Nat :=
  l.foldl (fun a c => 10 * a + digitVal c) 0

/-- "A decimal octet in [0,255]": one to three digit characters whose
value is at most 255 (the conventional dotted-quad component). -/
def isOctet (l : List Char) : Bool :=
  !l.isEmpty && decide (l.length ≤ 3) && l.all isDigitCh
    && decide (decVal l ≤ 255)

/-- Spec 4.2 / claim C2: the (trimmed) string consists of exactly four
dot-separated decimal octets, each in [0,255], with no other
characters. -/
def IsIPv4Quad (l : List Char) : Prop :=
  ∃ o1 o2 o3 o4 : List Char,
    isOctet o1 = true ∧ isOctet o2 = true ∧ isOctet o3 = true
    ∧ isOctet o4 = true
    ∧ l = o1 ++ '.' :: (o2 ++ '.' :: (o3 ++ '.' :: o4))

/-- A hexadecimal digit character, either case. -/
def isHexDigit (c : Char) : Bool :=
  (decide ('0' ≤ c) && decide (c ≤ '9'))
    || (decide ('A' ≤ c) && decide (c ≤ 'F'))
    || (decide ('a' ≤ c) && decide (c ≤ 'f'))

/-- "A two-hex-digit group". -/
def IsHexPair (g : List Char) : Prop :=
  g.length = 2 ∧ ∀ c ∈ g, isHexDigit c = true

/-- Spec 4.3 / claim C3: six `sep`-separated two-hex-digit groups. -/
def IsMacSep (sep : Char) (l : List Char) : Prop :=
  ∃ g1 g2 g3 g4 g5 g6 : List Char,
    IsHexPair g1 ∧ IsHexPair g2 ∧ IsHexPair g3 ∧ IsHexPair g4
    ∧ IsHexPair g5 ∧ IsHexPair g6
    ∧ l = g1 ++ sep :: (g2 ++ sep :: (g3 ++ sep :: (g4 ++ sep ::
        (g5 ++ sep :: g6))))

/-- Spec 4.3 / claim C3: twelve contiguous hex digits. -/
def IsMacBare (l : List Char) : Prop :=
  l.length = 12 ∧ ∀ c ∈ l, isHexDigit c = true

/-- Spec 4.3 / claim C3: one of the three canonical MAC layouts
(colon-separated, hyphen-separated, or bare). -/
def IsMacLayout (l : List Char) : Prop :=
  IsMacSep ':' l ∨ IsMacSep '-' l ∨ IsMacBare l

/-! ### Order bridges and language characterizations -/

theorem char_le_iff (a b : Char) : a ≤ b ↔ a.toNat ≤ b.toNat := Iff.rfl

theorem char_eq_iff (a b : Char) : a = b ↔ a.toNat = b.toNat := by
  constructor
  · rintro rfl; rfl
  · intro h
    exact le_antisymm ((char_le_iff a b).2 h.le) ((char_le_iff b a).2 h.ge)

theorem lang_eps (l : List Char) : Rx.eps.Lang l ↔ l = [] := Iff.rfl

theorem lang_cls (lo hi : Char) (l : List Char) :
    (Rx.cls lo hi).Lang l ↔ ∃ c, l = [c] ∧ lo ≤ c ∧ c ≤ hi := Iff.rfl

theorem lang_seq (a b : Rx) (l : List Char) :
    (Rx.seq a b).Lang l ↔ ∃ p q, l = p ++ q ∧ a.Lang p ∧ b.Lang q := Iff.rfl

theorem lang_alt (a b : Rx) (l : List Char) :
    (Rx.alt a b).Lang l ↔ a.Lang l ∨ b.Lang l := Iff.rfl

theorem lang_opt (a : Rx) (l : List Char) :
    (Rx.opt a).Lang l ↔ a.Lang l ∨ l = [] := Iff.rfl

/-- A singleton class `[c-c]` (a literal) matches exactly that char. -/
theorem cls_self_lang (c0 : Char) (m : List Char) :
    (Rx.cls c0 c0).Lang m ↔ m = [c0] := by
  rw [lang_cls]
  constructor
  · rintro ⟨c, rfl, h1, h2⟩
    rw [le_antisymm h2 h1]
  · rintro rfl
    exact ⟨c0, rfl, le_refl _, le_refl _⟩

theorem cls_single (lo hi : Char) (m : List Char) :
    (Rx.cls lo hi).Lang m ↔ ∃ c, m = [c] ∧ (lo ≤ c ∧ c ≤ hi) :=
  lang_cls lo hi m

/-- Prepending a single-character pattern to a sequence. -/
theorem lang_seq_single {r : Rx} {P : Char → Prop}
    (hr : ∀ m, r.Lang m ↔ ∃ c, m = [c] ∧ P c) (rest : Rx) (l : List Char) :
    (Rx.seq r rest).Lang l ↔ ∃ c t, l = c :: t ∧ P c ∧ rest.Lang t := by
  rw [lang_seq]
  constructor
  · rintro ⟨p, q, rfl, hp, hq⟩
    obtain ⟨c, rfl, hc⟩ := (hr p).1 hp
    exact ⟨c, q, rfl, hc, hq⟩
  · rintro ⟨c, t, rfl, hc, ht⟩
    exact ⟨[c], t, rfl, (hr [c]).2 ⟨c, rfl, hc⟩, ht⟩

/-- Prepending an optional single-character pattern to a sequence. -/
theorem lang_seq_opt_single {r : Rx} {P : Char → Prop}
    (hr : ∀ m, r.Lang m ↔ ∃ c, m = [c] ∧ P c) (rest : Rx) (l : List Char) :
    (Rx.seq (.opt r) rest).Lang l ↔
      (∃ c t, l = c :: t ∧ P c ∧ rest.Lang t) ∨ rest.Lang l := by
  rw [lang_seq]
  constructor
  · rintro ⟨p, q, rfl, hp | rfl, hq⟩
    · obtain ⟨c, rfl, hc⟩ := (hr p).1 hp
      exact Or.inl ⟨c, q, rfl, hc, hq⟩
    · exact Or.inr (by simpa using hq)
  · rintro (⟨c, t, rfl, hc, ht⟩ | hl)
    · exact ⟨[c], t, rfl, Or.inl ((hr [c]).2 ⟨c, rfl, hc⟩), ht⟩
    · exact ⟨[], l, rfl, Or.inr rfl, hl⟩

/-- Language of an `{n}` repetition of a single-character pattern. -/
theorem repN_single_lang {r : Rx} {P : Char → Prop}
    (hr : ∀ m, r.Lang m ↔ ∃ c, m = [c] ∧ P c) :
    ∀ (n : Nat) (l : List Char),
      (r.repN n).Lang l ↔ l.length = n ∧ ∀ c ∈ l, P c := by
  intro n
  induction n with
  | zero =>
    intro l
    rw [show r.repN 0 = .eps from rfl, lang_eps]
    constructor
    · rintro rfl; simp
    · rintro ⟨hlen, -⟩
      exact List.length_eq_zero.mp hlen
  | succ n ih =>
    intro l
    rw [show r.repN (n + 1) = .seq r (r.repN n) from rfl,
      lang_seq_single hr]
    constructor
    · rintro ⟨c, t, rfl, hc, ht⟩
      obtain ⟨hlen, hall⟩ := (ih t).1 ht
      refine ⟨by simp [hlen], ?_⟩
      rintro x hx
      rcases List.mem_cons.mp hx with rfl | hx
      · exact hc
      · exact hall x hx
    · rintro ⟨hlen, hall⟩
      cases l with
      | nil => simp at hlen
      | cons c t =>
        refine ⟨c, t, rfl, hall c (by simp), (ih t).2 ⟨?_, ?_⟩⟩
        · simpa using hlen
        · exact fun x hx => hall x (List.mem_cons_of_mem _ hx)

/-- Language of a general `{n}` repetition, as `n` concatenated parts. -/
theorem repN_lang (r : Rx) : ∀ (n : Nat) (l : List Char),
    (r.repN n).Lang l ↔
      ∃ parts : List (List Char), parts.length = n
        ∧ (∀ p ∈ parts, r.Lang p) ∧ l = parts.flatten := by
  intro n
  induction n with
  | zero =>
    intro l
    rw [show r.repN 0 = .eps from rfl, lang_eps]
    constructor
    · rintro rfl
      exact ⟨[], rfl, by simp, rfl⟩
    · rintro ⟨parts, hlen, -, rfl⟩
      rw [List.length_eq_zero] at hlen
      subst hlen
      rfl
  | succ n ih =>
    intro l
    rw [show r.repN (n + 1) = .seq r (r.repN n) from rfl, lang_seq]
    constructor
    · rintro ⟨p, q, rfl, hp, hq⟩
      obtain ⟨parts, hlen, hall, rfl⟩ := (ih q).1 hq
      refine ⟨p :: parts, by simp [hlen], ?_, by simp⟩
      rintro x hx
      rcases List.mem_cons.mp hx with rfl | hx
      · exact hp
      · exact hall x hx
    · rintro ⟨parts, hlen, hall, rfl⟩
      cases parts with
      | nil => simp at hlen
      | cons p parts =>
        refine ⟨p, parts.flatten, by simp, hall p (by simp), ?_⟩
        exact (ih parts.flatten).2
          ⟨parts, by simpa using hlen,
            fun x hx => hall x (List.mem_cons_of_mem _ hx), rfl⟩

theorem lang_seq_cls (lo hi : Char) (rest : Rx) (l : List Char) :
    (Rx.seq (.cls lo hi) rest).Lang l ↔
      ∃ c t, l = c :: t ∧ (lo ≤ c ∧ c ≤ hi) ∧ rest.Lang t :=
  lang_seq_single (cls_single lo hi) rest l

theorem lang_seq_optcls (lo hi : Char) (rest : Rx) (l : List Char) :
    (Rx.seq (.opt (.cls lo hi)) rest).Lang l ↔
      ((∃ c t, l = c :: t ∧ (lo ≤ c ∧ c ≤ hi) ∧ rest.Lang t)
        ∨ rest.Lang l) :=
  lang_seq_opt_single (cls_single lo hi) rest l

theorem lang_optcls (lo hi : Char) (l : List Char) :
    (Rx.opt (.cls lo hi)).Lang l ↔
      ((∃ c, l = [c] ∧ lo ≤ c ∧ c ≤ hi) ∨ l = []) := Iff.rfl

theorem toNatDot : ('.' : Char).toNat = 46 := rfl
theorem toNatD0 : ('0' : Char).toNat = 48 := rfl
theorem toNatD1 : ('1' : Char).toNat = 49 := rfl
theorem toNatD2 : ('2' : Char).toNat = 50 := rfl
theorem toNatD4 : ('4' : Char).toNat = 52 := rfl
theorem toNatD5 : ('5' : Char).toNat = 53 := rfl
theorem toNatD9 : ('9' : Char).toNat = 57 := rfl
theorem toNatUA : ('A' : Char).toNat = 65 := rfl
theorem toNatUF : ('F' : Char).toNat = 70 := rfl
theorem toNatLa : ('a' : Char).toNat = 97 := rfl
theorem toNatLf : ('f' : Char).toNat = 102 := rfl

/-- The octet alternation of the IPv4 pattern accepts exactly the 1-3
digit strings whose decimal value is at most 255. -/
theorem octet_lang (l : List Char) : octetRx.Lang l ↔ isOctet l = true := by
  simp only [octetRx, lang_alt, lang_seq_cls, lang_seq_optcls, lang_optcls,
    lang_cls]
  rcases l with _ | ⟨c1, _ | ⟨c2, _ | ⟨c3, _ | ⟨c4, t⟩⟩⟩⟩ <;>
    simp [isOctet, isDigitCh, decVal, digitVal, char_le_iff, and_assoc,
      toNatD0, toNatD1, toNatD2, toNatD4, toNatD5, toNatD9] <;>
    omega

/-- The IPv4 pattern accepts exactly the four-octet dotted quads. -/
theorem ipv4_lang (l : List Char) : ipv4Rx.Lang l ↔ IsIPv4Quad l := by
  rw [show ipv4Rx = Rx.seq ((Rx.seq octetRx (.cls '.' '.')).repN 3) octetRx
      from rfl, lang_seq]
  constructor
  · rintro ⟨p, q, rfl, hp, hq⟩
    rw [repN_lang] at hp
    obtain ⟨parts, hlen, hall, rfl⟩ := hp
    obtain ⟨p1, p2, p3, rfl⟩ : ∃ a b c, parts = [a, b, c] := by
      rcases parts with _ | ⟨a, _ | ⟨b, _ | ⟨c, _ | ⟨d, r⟩⟩⟩⟩ <;>
        simp only [List.length_cons, List.length_nil] at hlen <;>
        first
          | omega
          | exact ⟨_, _, _, rfl⟩
    have h1 := hall p1 (by simp)
    have h2 := hall p2 (by simp)
    have h3 := hall p3 (by simp)
    rw [lang_seq] at h1 h2 h3
    obtain ⟨o1, d1, rfl, ho1, hd1⟩ := h1
    obtain ⟨o2, d2, rfl, ho2, hd2⟩ := h2
    obtain ⟨o3, d3, rfl, ho3, hd3⟩ := h3
    rw [cls_self_lang] at hd1 hd2 hd3
    subst hd1; subst hd2; subst hd3
    exact ⟨o1, o2, o3, q, (octet_lang o1).1 ho1, (octet_lang o2).1 ho2,
      (octet_lang o3).1 ho3, (octet_lang q).1 hq, by simp⟩
  · rintro ⟨o1, o2, o3, o4, h1, h2, h3, h4, rfl⟩
    refine ⟨(o1 ++ ['.']) ++ ((o2 ++ ['.']) ++ ((o3 ++ ['.']) ++ [])), o4,
      by simp, ?_, (octet_lang o4).2 h4⟩
    rw [repN_lang]
    refine ⟨[o1 ++ ['.'], o2 ++ ['.'], o3 ++ ['.']], rfl, ?_, by simp⟩
    intro x hx
    simp only [List.mem_cons, List.not_mem_nil, or_false] at hx
    rcases hx with rfl | rfl | rfl
    · exact (lang_seq _ _ _).2
        ⟨o1, ['.'], rfl, (octet_lang o1).2 h1, (cls_self_lang _ _).2 rfl⟩
    · exact (lang_seq _ _ _).2
        ⟨o2, ['.'], rfl, (octet_lang o2).2 h2, (cls_self_lang _ _).2 rfl⟩
    · exact (lang_seq _ _ _).2
        ⟨o3, ['.'], rfl, (octet_lang o3).2 h3, (cls_self_lang _ _).2 rfl⟩

/-- The hex-digit class accepts exactly the hex digit characters. -/
theorem hex_lang (m : List Char) :
    hexRx.Lang m ↔ ∃ c, m = [c] ∧ isHexDigit c = true := by
  rw [show hexRx = Rx.alt (.cls '0' '9') (.alt (.cls 'A' 'F') (.cls 'a' 'f'))
      from rfl, lang_alt, lang_alt, lang_cls, lang_cls, lang_cls]
  constructor
  · rintro (⟨c, rfl, h1, h2⟩ | ⟨c, rfl, h1, h2⟩ | ⟨c, rfl, h1, h2⟩) <;>
      exact ⟨c, rfl, by simp [isHexDigit, h1, h2]⟩
  · rintro ⟨c, rfl, hc⟩
    simp only [isHexDigit, Bool.or_eq_true, Bool.and_eq_true,
      decide_eq_true_eq] at hc
    rcases hc with (⟨h1, h2⟩ | ⟨h1, h2⟩) | ⟨h1, h2⟩
    · exact Or.inl ⟨c, rfl, h1, h2⟩
    · exact Or.inr (Or.inl ⟨c, rfl, h1, h2⟩)
    · exact Or.inr (Or.inr ⟨c, rfl, h1, h2⟩)

theorem hexpair_lang (g : List Char) : (hexRx.repN 2).Lang g ↔ IsHexPair g :=
  repN_single_lang hex_lang 2 g

theorem macBare_lang (l : List Char) : macBareRx.Lang l ↔ IsMacBare l :=
  repN_single_lang hex_lang 12 l

/-- One `XX:`/`XX-` group of the separated MAC patterns. -/
theorem group_lang (sep : Char) (m : List Char) :
    (Rx.seq (hexRx.repN 2) (.cls sep sep)).Lang m ↔
      ∃ g, IsHexPair g ∧ m = g ++ [sep] := by
  rw [lang_seq]
  constructor
  · rintro ⟨p, q, rfl, hp, hq⟩
    rw [cls_self_lang] at hq
    subst hq
    exact ⟨p, (hexpair_lang p).1 hp, rfl⟩
  · rintro ⟨g, hg, rfl⟩
    exact ⟨g, [sep], rfl, (hexpair_lang g).2 hg, (cls_self_lang _ _).2 rfl⟩

/-- The separated MAC patterns accept exactly six `sep`-separated
two-hex-digit groups. -/
theorem macSep_lang (sep : Char) (l : List Char) :
    (Rx.seq ((Rx.seq (hexRx.repN 2) (.cls sep sep)).repN 5)
        (hexRx.repN 2)).Lang l
      ↔ IsMacSep sep l := by
  rw [lang_seq]
  constructor
  · rintro ⟨p, q, rfl, hp, hq⟩
    rw [repN_lang] at hp
    obtain ⟨parts, hlen, hall, rfl⟩ := hp
    obtain ⟨p1, p2, p3, p4, p5, rfl⟩ : ∃ a b c d e, parts = [a, b, c, d, e] := by
      rcases parts with _ | ⟨a, _ | ⟨b, _ | ⟨c, _ | ⟨d, _ | ⟨e, _ | ⟨f, r⟩⟩⟩⟩⟩⟩ <;>
        simp only [List.length_cons, List.length_nil] at hlen <;>
        first
          | omega
          | exact ⟨_, _, _, _, _, rfl⟩
    obtain ⟨g1, hg1, rfl⟩ := (group_lang sep p1).1 (hall p1 (by simp))
    obtain ⟨g2, hg2, rfl⟩ := (group_lang sep p2).1 (hall p2 (by simp))
    obtain ⟨g3, hg3, rfl⟩ := (group_lang sep p3).1 (hall p3 (by simp))
    obtain ⟨g4, hg4, rfl⟩ := (group_lang sep p4).1 (hall p4 (by simp))
    obtain ⟨g5, hg5, rfl⟩ := (group_lang sep p5).1 (hall p5 (by simp))
    exact ⟨g1, g2, g3, g4, g5, q, hg1, hg2, hg3, hg4, hg5,
      (hexpair_lang q).1 hq, by simp⟩
  · rintro ⟨g1, g2, g3, g4, g5, g6, h1, h2, h3, h4, h5, h6, rfl⟩
    refine ⟨(g1 ++ [sep]) ++ ((g2 ++ [sep]) ++ ((g3 ++ [sep])
        ++ ((g4 ++ [sep]) ++ ((g5 ++ [sep]) ++ [])))), g6,
      by simp, ?_, (hexpair_lang g6).2 h6⟩
    rw [repN_lang]
    refine ⟨[g1 ++ [sep], g2 ++ [sep], g3 ++ [sep], g4 ++ [sep],
      g5 ++ [sep]], rfl, ?_, by simp⟩
    intro x hx
    simp only [List.mem_cons, List.not_mem_nil, or_false] at hx
    rw [group_lang]
    rcases hx with rfl | rfl | rfl | rfl | rfl
    · exact ⟨g1, h1, rfl⟩
    · exact ⟨g2, h2, rfl⟩
    · exact ⟨g3, h3, rfl⟩
    · exact ⟨g4, h4, rfl⟩
    · exact ⟨g5, h5, rfl⟩

theorem macColon_lang (l : List Char) : macColonRx.Lang l ↔ IsMacSep ':' l :=
  macSep_lang ':' l

theorem macHyphen_lang (l : List Char) : macHyphenRx.Lang l ↔ IsMacSep '-' l :=
  macSep_lang '-' l

theorem not_ipv4_nil : ¬ IsIPv4Quad [] := by
  rintro ⟨o1, o2, o3, o4, -, -, -, -, h⟩
  simp at h

theorem not_maclayout_nil : ¬ IsMacLayout [] := by
  rintro (⟨g1, g2, g3, g4, g5, g6, -, -, -, -, -, -, h⟩
    | ⟨g1, g2, g3, g4, g5, g6, -, -, -, -, -, -, h⟩ | ⟨hlen, -⟩)
  · simp at h
  · simp at h
  · simp at hlen

/-! ### Claims about the validators -/

/-- Claim C2: the IPv4 validator returns true exactly on strings whose
trimmed form is four dot-separated decimal octets, each in [0,255], with
no other characters; non-strings and the empty string are rejected;
`"192.168.1.1"` is accepted while `"999.999.999.999"`, `"1.2.3.4.5"`
and `""` are rejected. -/
theorem c2_validate_ip_iff :
    (∀ v : PyVal, validate_ip_address v = true ↔
      ∃ s, v = .pystr s ∧ IsIPv4Quad (pyStrip s).data)
    ∧ validate_ip_address (.pystr "192.168.1.1") = true
    ∧ validate_ip_address (.pystr "999.999.999.999") = false
    ∧ validate_ip_address (.pystr "1.2.3.4.5") = false
    ∧ validate_ip_address (.pystr "") = false := by
  refine ⟨?_, by decide, by decide, by decide, rfl⟩
  intro v
  cases v with
  | pystr s =>
    by_cases hs : s = ""
    · subst hs
      constructor
      · intro h; exact absurd h (by decide)
      · rintro ⟨s', hs', h⟩
        injection hs' with h'
        subst h'
        exact absurd h not_ipv4_nil
    · rw [show validate_ip_address (.pystr s)
          = ipv4Rx.fullmatch (pyStrip s) from by
            simp [validate_ip_address, hs]]
      rw [Rx.fullmatch_iff, ipv4_lang]
      constructor
      · intro h; exact ⟨s, rfl, h⟩
      · rintro ⟨s', hs', h⟩
        injection hs' with h'
        subst h'
        exact h
  | pynone =>
    constructor
    · intro h; simp [validate_ip_address] at h
    · rintro ⟨s, h, -⟩; exact PyVal.noConfusion h
  | pybool b =>
    constructor
    · intro h; simp [validate_ip_address] at h
    · rintro ⟨s, h, -⟩; exact PyVal.noConfusion h
  | pyint n =>
    constructor
    · intro h; simp [validate_ip_address] at h
    · rintro ⟨s, h, -⟩; exact PyVal.noConfusion h
  | pylist xs =>
    constructor
    · intro h; simp [validate_ip_address] at h
    · rintro ⟨s, h, -⟩; exact PyVal.noConfusion h
  | pydict kvs =>
    constructor
    · intro h; simp [validate_ip_address] at h
    · rintro ⟨s, h, -⟩; exact PyVal.noConfusion h

/-- Claim C3: the MAC validator returns true exactly on strings whose
trimmed form is one of the three canonical layouts — six
colon-separated two-hex-digit groups, six hyphen-separated
two-hex-digit groups, or twelve contiguous hex digits — with hex digits
of either case; everything else (non-strings, mixed separators, wrong
group counts, non-hex characters) is rejected. -/
theorem c3_validate_mac_iff :
    (∀ v : PyVal, validate_mac_address v = true ↔
      ∃ s, v = .pystr s ∧ IsMacLayout (pyStrip s).data)
    ∧ validate_mac_address (.pystr "AA:BB:CC:DD:EE:FF") = true
    ∧ validate_mac_address (.pystr "aabbccddeeff") = true
    ∧ validate_mac_address (.pystr "AA:BB:CC:DD:EE") = false
    ∧ validate_mac_address (.pystr "AA:BB-CC:DD:EE:FF") = false := by
  refine ⟨?_, by decide, by decide, by decide, by decide⟩
  intro v
  cases v with
  | pystr s =>
    by_cases hs : s = ""
    · subst hs
      constructor
      · intro h; exact absurd h (by decide)
      · rintro ⟨s', hs', h⟩
        injection hs' with h'
        subst h'
        exact absurd h not_maclayout_nil
    · rw [show validate_mac_address (.pystr s)
          = (macColonRx.fullmatch (pyStrip s)
            || macHyphenRx.fullmatch (pyStrip s)
            || macBareRx.fullmatch (pyStrip s)) from by
            simp [validate_mac_address, hs]]
      simp only [Bool.or_eq_true, Rx.fullmatch_iff, macColon_lang,
        macHyphen_lang, macBare_lang]
      rw [or_assoc]
      constructor
      · intro h; exact ⟨s, rfl, h⟩
      · rintro ⟨s', hs', h⟩
        injection hs' with h'
        subst h'
        exact h
  | pynone =>
    constructor
    · intro h; simp [validate_mac_address] at h
    · rintro ⟨s, h, -⟩; exact PyVal.noConfusion h
  | pybool b =>
    constructor
    · intro h; simp [validate_mac_address] at h
    · rintro ⟨s, h, -⟩; exact PyVal.noConfusion h
  | pyint n =>
    constructor
    · intro h; simp [validate_mac_address] at h
    · rintro ⟨s, h, -⟩; exact PyVal.noConfusion h
  | pylist xs =>
    constructor
    · intro h; simp [validate_mac_address] at h
    · rintro ⟨s, h, -⟩; exact PyVal.noConfusion h
  | pydict kvs =>
    constructor
    · intro h; simp [validate_mac_address] at h
    · rintro ⟨s, h, -⟩; exact PyVal.noConfusion h

/-! ### Claims about the authentication gate -/

/-- Claim C5 counterexample: the claim says a *present* but wrong
`X-API-Key` header always yields the "Invalid API key" message, but a
present empty header is falsy, so the gate answers "API key required"
instead. -/
theorem c5_counterexample :
    ("" : String) ≠ "configured-key"
    ∧ require_api_key_check "configured-key" (some "")
        = some ⟨401, jsonError "API key required"⟩
    ∧ jsonError "API key required" ≠ jsonError "Invalid API key" := by
  refine ⟨by decide, rfl, by decide⟩

/-- Claim C5 (amended): a missing header yields 401 "API key required";
a present *non-empty* header different from the configured key yields
401 "Invalid API key"; a header equal to the (non-empty) configured key
passes the gate, so the wrapped handler runs on both protected
endpoints. -/
theorem c5_amended_auth_gate (apiKey : String) (hne : apiKey ≠ "") :
    require_api_key_check apiKey none = some ⟨401, jsonError "API key required"⟩
    ∧ (∀ k, k ≠ "" → k ≠ apiKey →
        require_api_key_check apiKey (some k)
          = some ⟨401, jsonError "Invalid API key"⟩)
    ∧ require_api_key_check apiKey (some apiKey) = none
    ∧ (∀ ip out, ping_endpoint apiKey (some apiKey) ip out = ping_host ip out)
    ∧ (∀ data sendOk, wol_endpoint apiKey (some apiKey) data sendOk
        = wake_on_lan data sendOk) := by
  have hpass : require_api_key_check apiKey (some apiKey) = none := by
    simp [require_api_key_check, hne]
  refine ⟨rfl, ?_, hpass, ?_, ?_⟩
  · intro k hk hne'
    simp [require_api_key_check, hk, hne']
  · intro ip out
    simp [ping_endpoint, hpass]
  · intro data sendOk
    simp [wol_endpoint, hpass]

theorem c5_amended_auth_gate_witness :
    require_api_key_check "pinet-key" none
        = some ⟨401, jsonError "API key required"⟩
    ∧ require_api_key_check "pinet-key" (some "wrong-key")
        = some ⟨401, jsonError "Invalid API key"⟩
    ∧ require_api_key_check "pinet-key" (some "pinet-key") = none := by
  have h := c5_amended_auth_gate "pinet-key" (by decide)
  exact ⟨h.1, h.2.1 "wrong-key" (by decide) (by decide), h.2.2.1⟩

/-- Claim C8: a present but empty `X-API-Key` header takes the
missing-key branch (the gate tests falsiness, not presence): 401 "API
key required", never "Invalid API key"; and since the startup check only
accepts a non-empty configured key, an empty header value never
authenticates. -/
theorem c8_empty_key_header (apiKey : String) (env : Option String)
    (k : String) (hk : startup_api_key env = some k) :
    require_api_key_check apiKey (some "")
        = some ⟨401, jsonError "API key required"⟩
    ∧ jsonError "API key required" ≠ jsonError "Invalid API key"
    ∧ k ≠ ""
    ∧ require_api_key_check k (some "") ≠ none := by
  have hne : k ≠ "" := by
    cases env with
    | none => simp [startup_api_key] at hk
    | some e =>
      by_cases he : e = ""
      · simp [startup_api_key, he] at hk
      · simp [startup_api_key, he] at hk
        subst hk; exact he
  exact ⟨rfl, by decide, hne, by simp [require_api_key_check]⟩

theorem c8_empty_key_header_witness :
    require_api_key_check "pinet-key" (some "")
        = some ⟨401, jsonError "API key required"⟩
    ∧ ("pinet-key" : String) ≠ ""
    ∧ require_api_key_check "pinet-key" (some "") ≠ none := by
  have h := c8_empty_key_header "pinet-key" (some "pinet-key") "pinet-key" (by decide)
  exact ⟨h.1, h.2.2.1, h.2.2.2⟩

/-! ### Claims about the ping endpoint -/

/-- Claim C1: with authentication passed and the path IP validated, exit
code 0 yields 200/"online", any non-zero exit code yields 200/"offline",
and expiry of the overall 5-second timeout yields exactly the same
200/"offline" response as a non-zero exit — never an error response. -/
theorem c1_ping_outcomes (apiKey : String) (hdr : Option String) (ip : String)
    (hauth : require_api_key_check apiKey hdr = none)
    (hip : validate_ip_address (.pystr ip) = true) :
    ping_endpoint apiKey hdr ip (.exited 0)
        = (⟨200, [("ip_address", ip), ("status", "online")]⟩, true)
    ∧ (∀ rc : Int, rc ≠ 0 → ping_endpoint apiKey hdr ip (.exited rc)
        = (⟨200, [("ip_address", ip), ("status", "offline")]⟩, true))
    ∧ ping_endpoint apiKey hdr ip .timedOut
        = (⟨200, [("ip_address", ip), ("status", "offline")]⟩, true)
    ∧ (∀ rc : Int, rc ≠ 0 →
        ping_endpoint apiKey hdr ip .timedOut
          = ping_endpoint apiKey hdr ip (.exited rc))
    ∧ (ping_endpoint apiKey hdr ip .timedOut).1.status = 200 := by
  simp only [ping_endpoint, hauth, ping_host, hip, Bool.not_true, if_false]
  refine ⟨by simp, ?_, by simp, ?_, by simp⟩
  · intro rc hrc; simp [hrc]
  · intro rc hrc; simp [hrc]

theorem c1_ping_outcomes_witness :
    ping_endpoint "pinet-key" (some "pinet-key") "8.8.8.8" (.exited 0)
        = (⟨200, [("ip_address", "8.8.8.8"), ("status", "online")]⟩, true)
    ∧ ping_endpoint "pinet-key" (some "pinet-key") "8.8.8.8" (.exited 1)
        = (⟨200, [("ip_address", "8.8.8.8"), ("status", "offline")]⟩, true)
    ∧ ping_endpoint "pinet-key" (some "pinet-key") "8.8.8.8" .timedOut
        = (⟨200, [("ip_address", "8.8.8.8"), ("status", "offline")]⟩, true) := by
  have h := c1_ping_outcomes "pinet-key" (some "pinet-key") "8.8.8.8"
    (by decide) (by decide)
  exact ⟨h.1, h.2.1 1 (by decide), h.2.2.1⟩

/-- Claim C7: with authentication passed but the path IP failing
validation, every subprocess outcome yields the same 400 invalid-format
response (never 500), the subprocess is never invoked, and an
authentication failure decides the response before validation is ever
consulted. -/
theorem c7_invalid_ip (apiKey : String) (hdr : Option String) (ip : String)
    (hauth : require_api_key_check apiKey hdr = none)
    (hip : validate_ip_address (.pystr ip) = false) :
    (∀ out, ping_endpoint apiKey hdr ip out
        = (⟨400, jsonError "Invalid IP address format."⟩, false))
    ∧ (∀ out, (ping_endpoint apiKey hdr ip out).1.status ≠ 500)
    ∧ (∀ out, (ping_endpoint apiKey hdr ip out).2 = false)
    ∧ (∀ hdr' r out, require_api_key_check apiKey hdr' = some r →
        ping_endpoint apiKey hdr' ip out = (r, false)) := by
  have hmain : ∀ out, ping_endpoint apiKey hdr ip out
      = (⟨400, jsonError "Invalid IP address format."⟩, false) := by
    intro out
    simp [ping_endpoint, hauth, ping_host, hip]
  refine ⟨hmain, ?_, ?_, ?_⟩
  · intro out; rw [hmain out]; decide
  · intro out; rw [hmain out]
  · intro hdr' r out hdeny
    simp [ping_endpoint, hdeny]

theorem c7_invalid_ip_witness :
    ping_endpoint "pinet-key" (some "pinet-key") "not-an-ip" (.exited 0)
        = (⟨400, jsonError "Invalid IP address format."⟩, false)
    ∧ (ping_endpoint "pinet-key" (some "pinet-key") "not-an-ip" .raised).2 = false
    ∧ ping_endpoint "pinet-key" (some "wrong") "not-an-ip" (.exited 0)
        = (⟨401, jsonError "Invalid API key"⟩, false) := by
  have h := c7_invalid_ip "pinet-key" (some "pinet-key") "not-an-ip"
    (by decide) (by decide)
  exact ⟨h.1 (.exited 0), h.2.2.1 .raised,
    h.2.2.2 (some "wrong") ⟨401, jsonError "Invalid API key"⟩ (.exited 0) (by decide)⟩

/-! ### Claims about the Wake-on-LAN endpoint -/

/-- Claim C4 counterexample: the claim says body `{}` yields the 400
missing-field message, but an empty parsed object is falsy, so the
handler's `if not data` branch answers the 400 "Request body must be
JSON" message instead. -/
theorem c4_counterexample :
    wol_endpoint "configured-key" (some "configured-key")
        (some (.pydict [])) true
      = (⟨400, jsonError "Request body must be JSON"⟩, none)
    ∧ jsonError "Request body must be JSON"
      ≠ jsonError "Missing mac_address field in request body" :=
  ⟨rfl, by decide⟩

/-- Claim C4 (amended): an absent/unparseable body *and* a body parsing
to the empty object `{}` both yield the 400 "Request body must be JSON"
message (the handler's falsiness test conflates them); the 400
missing-field message is produced when the body parses to a non-empty
object that has no `mac_address` key. -/
theorem c4_amended_wol_body (apiKey : String) (hdr : Option String)
    (hauth : require_api_key_check apiKey hdr = none) :
    (∀ sendOk, wol_endpoint apiKey hdr none sendOk
        = (⟨400, jsonError "Request body must be JSON"⟩, none))
    ∧ (∀ sendOk, wol_endpoint apiKey hdr (some (.pydict [])) sendOk
        = (⟨400, jsonError "Request body must be JSON"⟩, none))
    ∧ (∀ kvs sendOk, kvs ≠ [] → pyGet kvs "mac_address" = none →
        wol_endpoint apiKey hdr (some (.pydict kvs)) sendOk
          = (⟨400, jsonError "Missing mac_address field in request body"⟩,
              none)) := by
  refine ⟨?_, ?_, ?_⟩
  · intro sendOk; simp [wol_endpoint, hauth, wake_on_lan]
  · intro sendOk; simp [wol_endpoint, hauth, wake_on_lan, PyVal.truthy]
  · intro kvs sendOk hne hget
    simp [wol_endpoint, hauth, wake_on_lan, PyVal.truthy,
      List.isEmpty_iff, hne, hget, PyVal.truthy]

theorem c4_amended_wol_body_witness :
    wol_endpoint "pinet-key" (some "pinet-key") none true
        = (⟨400, jsonError "Request body must be JSON"⟩, none)
    ∧ wol_endpoint "pinet-key" (some "pinet-key") (some (.pydict [])) true
        = (⟨400, jsonError "Request body must be JSON"⟩, none)
    ∧ wol_endpoint "pinet-key" (some "pinet-key")
        (some (.pydict [("other", .pystr "x")])) true
        = (⟨400, jsonError "Missing mac_address field in request body"⟩,
            none) := by
  have h := c4_amended_wol_body "pinet-key" (some "pinet-key") (by decide)
  exact ⟨h.1 true, h.2.1 true,
    h.2.2 [("other", .pystr "x")] true (List.cons_ne_nil _ _) (by rfl)⟩

/-- Claim C9: a `mac_address` field holding a falsy value (empty string,
`False`, `0`, `None`) takes the missing-field branch, while a truthy
non-string value fails MAC validation (which rejects every non-string)
and takes the invalid-format branch. -/
theorem c9_falsy_and_nonstring_mac (apiKey : String) (hdr : Option String)
    (kvs : List (String × PyVal)) (v : PyVal) (sendOk : Bool)
    (hauth : require_api_key_check apiKey hdr = none)
    (hne : kvs ≠ [])
    (hget : pyGet kvs "mac_address" = some v) :
    (v.truthy = false →
      wol_endpoint apiKey hdr (some (.pydict kvs)) sendOk
        = (⟨400, jsonError "Missing mac_address field in request body"⟩, none))
    ∧ (v.truthy = true → v.isStr = false →
      wol_endpoint apiKey hdr (some (.pydict kvs)) sendOk
        = (⟨400, jsonError "Invalid MAC address format."⟩, none))
    ∧ (∀ w : PyVal, w.isStr = false → validate_mac_address w = false)
    ∧ PyVal.truthy (.pystr "") = false ∧ PyVal.truthy (.pybool false) = false
    ∧ PyVal.truthy (.pyint 0) = false ∧ PyVal.truthy .pynone = false := by
  have hval : ∀ w : PyVal, w.isStr = false → validate_mac_address w = false := by
    intro w hw
    cases w <;> first
      | rfl
      | simp [PyVal.isStr] at hw
  have hd : PyVal.truthy (.pydict kvs) = true := by
    simp [PyVal.truthy, List.isEmpty_iff, hne]
  refine ⟨?_, ?_, hval, rfl, rfl, rfl, rfl⟩
  · intro hfalsy
    simp [wol_endpoint, hauth, wake_on_lan, hd, hget, hfalsy]
  · intro htruthy hstr
    simp [wol_endpoint, hauth, wake_on_lan, hd, hget, htruthy, hval v hstr]

theorem c9_falsy_and_nonstring_mac_witness :
    wol_endpoint "pinet-key" (some "pinet-key")
        (some (.pydict [("mac_address", .pystr "")])) true
      = (⟨400, jsonError "Missing mac_address field in request body"⟩, none)
    ∧ wol_endpoint "pinet-key" (some "pinet-key")
        (some (.pydict [("mac_address", .pyint 123)])) true
      = (⟨400, jsonError "Invalid MAC address format."⟩, none)
    ∧ validate_mac_address (.pylist [.pyint 1]) = false := by
  have h1 := c9_falsy_and_nonstring_mac "pinet-key" (some "pinet-key")
    [("mac_address", .pystr "")] (.pystr "") true (by decide) (List.cons_ne_nil _ _) rfl
  have h2 := c9_falsy_and_nonstring_mac "pinet-key" (some "pinet-key")
    [("mac_address", .pyint 123)] (.pyint 123) true (by decide) (List.cons_ne_nil _ _) rfl
  exact ⟨h1.1 rfl, h2.2.1 rfl rfl, h2.2.2.1 (.pylist [.pyint 1]) rfl⟩

/-- Claim C6: with authentication passed and a `mac_address` field that
passes MAC validation, a successful send yields 200 with a success
message containing the submitted MAC, and a raising send yields the
generic 500 failure body with no internal detail. -/
theorem c6_wol_send (apiKey : String) (hdr : Option String) (s : String)
    (hauth : require_api_key_check apiKey hdr = none)
    (hmac : validate_mac_address (.pystr s) = true) :
    wol_endpoint apiKey hdr (some (.pydict [("mac_address", .pystr s)])) true
      = (⟨200, [("status", "success"),
          ("message", "Wake-on-LAN packet sent to " ++ s)]⟩, some (.pystr s))
    ∧ wol_endpoint apiKey hdr (some (.pydict [("mac_address", .pystr s)])) false
      = (⟨500, jsonError "Failed to send Wake-on-LAN packet"⟩, some (.pystr s))
    ∧ (∃ pre, "Wake-on-LAN packet sent to " ++ s = pre ++ s) := by
  have hs : s ≠ "" := by
    intro h; subst h; simp [validate_mac_address] at hmac
  refine ⟨?_, ?_, ⟨"Wake-on-LAN packet sent to ", rfl⟩⟩ <;>
    simp [wol_endpoint, hauth, wake_on_lan, pyGet, List.find?,
      PyVal.truthy, hs, hmac, PyVal.pyStr]

theorem c6_wol_send_witness :
    wol_endpoint "pinet-key" (some "pinet-key")
        (some (.pydict [("mac_address", .pystr "AA:BB:CC:DD:EE:FF")])) true
      = (⟨200, [("status", "success"),
          ("message", "Wake-on-LAN packet sent to AA:BB:CC:DD:EE:FF")]⟩,
          some (.pystr "AA:BB:CC:DD:EE:FF"))
    ∧ wol_endpoint "pinet-key" (some "pinet-key")
        (some (.pydict [("mac_address", .pystr "AA:BB:CC:DD:EE:FF")])) false
      = (⟨500, jsonError "Failed to send Wake-on-LAN packet"⟩,
          some (.pystr "AA:BB:CC:DD:EE:FF")) := by
  have h := c6_wol_send "pinet-key" (some "pinet-key") "AA:BB:CC:DD:EE:FF"
    (by decide) (by decide)
  exact ⟨h.1, h.2.1⟩

/-- Claim C10: the handler forwards the original, untrimmed
`mac_address` string to the packet sender even though the validator only
matched its stripped form, so a whitespace-padded valid MAC is sent
padded, not in the trimmed form that was validated. -/
theorem c10_wol_forwards_untrimmed (apiKey : String) (hdr : Option String)
    (s : String) (sendOk : Bool)
    (hauth : require_api_key_check apiKey hdr = none)
    (hmac : validate_mac_address (.pystr s) = true) :
    (wol_endpoint apiKey hdr
        (some (.pydict [("mac_address", .pystr s)])) sendOk).2
      = some (.pystr s)
    ∧ (pyStrip s ≠ s →
        (some (PyVal.pystr s) : Option PyVal) ≠ some (.pystr (pyStrip s))) := by
  have hs : s ≠ "" := by
    intro h; subst h; simp [validate_mac_address] at hmac
  constructor
  · cases sendOk <;>
      simp [wol_endpoint, hauth, wake_on_lan, pyGet, List.find?,
        PyVal.truthy, hs, hmac]
  · intro h
    simp only [ne_eq, Option.some.injEq, PyVal.pystr.injEq]
    exact fun e => h e.symm

theorem c10_wol_forwards_untrimmed_witness :
    (wol_endpoint "pinet-key" (some "pinet-key")
        (some (.pydict [("mac_address", .pystr " AA:BB:CC:DD:EE:FF")])) true).2
      = some (.pystr " AA:BB:CC:DD:EE:FF")
    ∧ (some (PyVal.pystr " AA:BB:CC:DD:EE:FF") : Option PyVal)
      ≠ some (.pystr (pyStrip " AA:BB:CC:DD:EE:FF")) := by
  have h := c10_wol_forwards_untrimmed "pinet-key" (some "pinet-key")
    " AA:BB:CC:DD:EE:FF" true (by decide) (by decide)
  exact ⟨h.1, h.2 (by decide)⟩

end PiNet
